import Mathlib

/-!
Verification of the backup storage service of `pkg/cloudprovider/backup_service.go`
(the Heptio Ark backup persistence layer): key derivation, the multi-object upload
protocol with compensating rollback, best-effort deletion, full-bucket enumeration,
and the cache-backed read path.

The object-storage adapter is external; we model it by an explicit store state
(a bucket/key/data association list) together with a failure schedule: each
fallible external step (PutObject, GetObject, DeleteObject, ListCommonPrefixes,
and reading a returned stream) consumes the next schedule entry, `some e`
meaning the step fails with adapter error `e` and `none` meaning it succeeds.
The metadata decoder (k8s universal decoder) is likewise external and is passed
in as a function from payloads to decoded objects.
-/

set_option autoImplicit false

namespace Velero

/-- Payload bytes of a stored object. -/
abbrev Data := String

/-- Go `error` values as surfaced by this layer: an opaque message, or a
`k8s.io/apimachinery/pkg/util/errors` aggregate of underlying errors. -/
inductive Err where
  | msg (s : String) : Err
  | aggregate (errs : List Err) : Err

mutual

/-- Rendering of an error, mirroring `Error()`: an aggregate of one error
renders as that error; an aggregate of several renders `[e1, e2, ...]`. -/
def Err.render : Err → String
  | .msg s => s
  | .aggregate [] => ""
  | .aggregate [e] => e.render
  | .aggregate (e :: e₂ :: rest) => "[" ++ e.render ++ renderRest (e₂ :: rest) ++ "]"

/-- Tail of an aggregate rendering: `", e"` for each remaining error. -/
def renderRest : List Err → String
  | [] => ""
  | e :: rest => ", " ++ e.render ++ renderRest rest

end

/-- Model of `errors.NewAggregate` on a list that may contain nil entries: nils are
filtered out; the result is nil when nothing remains, otherwise an aggregate
of the surviving errors in order. -/
def NewAggregate (errlist : List (Option Err)) : Option Err :=
  let errs := errlist.filterMap id
  if errs.isEmpty then none else some (.aggregate errs)

/-- Model of `fmt.Sprintf` restricted to the `%s`/`%v` verbs (the only ones
this file uses): each verb consumes the next argument verbatim. Every call in
this file supplies exactly as many arguments as the format has verbs, so the
exhausted-arguments case (first equation) only ever copies verb-free text. -/
def sprintfAux : List Char → List String → List Char
  | cs, [] => cs
  | [], _ => []
  | '%' :: 's' :: rest, a :: args => a.data ++ sprintfAux rest args
  | '%' :: 'v' :: rest, a :: args => a.data ++ sprintfAux rest args
  | c :: rest, args => c :: sprintfAux rest args

/-- Model of `fmt.Sprintf` over `%s`/`%v` format strings. -/
def sprintf (format : String) (args : List String) : String :=
  ⟨sprintfAux format.data args⟩

/-- Format string for the metadata object key. -/
def metadataFileFormatString : String := "%s/ark-backup.json"

/-- Format string for the data-archive object key. -/
def backupFileFormatString : String := "%s/%s.tar.gz"

/-- Format string for the log object key. -/
def logFileFormatString : String := "%s/%s.log.gz"

/-- Key of the metadata object for a backup name. -/
def getMetadataKey (backup : String) : String :=
  sprintf metadataFileFormatString [backup]

/-- Key of the data-archive object for a backup name. -/
def getBackupKey (backup : String) : String :=
  sprintf backupFileFormatString [backup, backup]

/-- Key of the log object for a backup name. -/
def getBackupLogKey (backup : String) : String :=
  sprintf logFileFormatString [backup, backup]

/-- A decoded backup record (`api.Backup`): a versioned object with name,
spec and status. -/
structure Backup where
  name : String
  spec : String
  status : String
deriving DecidableEq, Repr

/-- Result of the universal decoder on a payload: either an `api.Backup`, or
some other runtime object (carrying the name its `%T` formatting produces). -/
inductive DecodedObj where
  | backup (b : Backup) : DecodedObj
  | other (typeName : String) : DecodedObj
deriving DecidableEq, Repr

/-- State of the external world seen through the object-storage adapter:
the stored objects (bucket, key, data), the failure schedule consumed by
fallible external steps, and the observability channel (`glog`) messages. -/
structure StoreState where
  objects : List (String × String × Data)
  schedule : List (Option Err)
  glog : List String

/-- Pop the next failure-schedule entry (an exhausted schedule means success). -/
def nextStep (s : StoreState) : Option Err × StoreState :=
  match s.schedule with
  | [] => (none, s)
  | e :: rest => (e, { s with schedule := rest })

/-- Look up the object stored under a bucket and key. -/
def lookupObj : List (String × String × Data) → String → String → Option Data
  | [], _, _ => none
  | o :: rest, bucket, key =>
    if o.1 = bucket ∧ o.2.1 = key then some o.2.2 else lookupObj rest bucket key

/-- Remove the object stored under a bucket and key. -/
def removeObj : List (String × String × Data) → String → String → List (String × String × Data)
  | [], _, _ => []
  | o :: rest, bucket, key =>
    if o.1 = bucket ∧ o.2.1 = key then removeObj rest bucket key
    else o :: removeObj rest bucket key

/-- Store an object under a bucket and key, overwriting any existing one. -/
def insertObj (objs : List (String × String × Data)) (bucket key : String) (d : Data) :
    List (String × String × Data) :=
  removeObj objs bucket key ++ [(bucket, key, d)]

/-- Adapter `PutObject`: on a scheduled failure the store is unchanged,
otherwise the object is written. -/
def putObject (s : StoreState) (bucket key : String) (d : Data) : StoreState × Option Err :=
  let (f, s') := nextStep s
  match f with
  | some e => (s', some e)
  | none => ({ s' with objects := insertObj s'.objects bucket key d }, none)

/-- Adapter `DeleteObject`: on a scheduled failure the store is unchanged,
otherwise the object (if present) is removed; deleting an absent key succeeds. -/
def deleteObject (s : StoreState) (bucket key : String) : StoreState × Option Err :=
  let (f, s') := nextStep s
  match f with
  | some e => (s', some e)
  | none => ({ s' with objects := removeObj s'.objects bucket key }, none)

/-- Adapter `GetObject`: a scheduled failure or an absent key yields an error,
otherwise the stored payload is returned (as the stream's eventual contents). -/
def getObject (s : StoreState) (bucket key : String) : StoreState × Except Err Data :=
  let (f, s') := nextStep s
  match f with
  | some e => (s', .error e)
  | none =>
    match lookupObj s'.objects bucket key with
    | some d => (s', .ok d)
    | none => (s', .error (.msg (sprintf "not found: %s/%s" [bucket, key])))

/-- Model of `ioutil.ReadAll` on the stream returned by `GetObject`: reading may fail
(one schedule step), otherwise it yields the payload. -/
def readAll (s : StoreState) (d : Data) : StoreState × Except Err Data :=
  let (f, s') := nextStep s
  match f with
  | some e => (s', .error e)
  | none => (s', .ok d)

/-- Split a character list at the first occurrence of a delimiter character,
when it occurs. -/
def splitFirst (delim : Char) : List Char → Option (List Char × List Char)
  | [] => none
  | c :: rest =>
    if c = delim then some ([], rest)
    else
      match splitFirst delim rest with
      | some (pre, post) => some (c :: pre, post)
      | none => none

/-- Common prefix of a key for a (single-character) delimiter string: the part
before the first occurrence of the delimiter, when the key contains it. The
service only ever passes the delimiter `"/"`. -/
def commonPrefixOf (delim key : String) : Option String :=
  match delim.data with
  | [d] => (splitFirst d key.data).map (fun pr => ⟨pr.1⟩)
  | _ => none

/-- First-occurrence deduplication of a list of prefixes. -/
def eraseDupsAux (seen : List String) : List String → List String
  | [] => []
  | x :: xs => if x ∈ seen then eraseDupsAux seen xs else x :: eraseDupsAux (x :: seen) xs

/-- The distinct top-level directory prefixes of a bucket's keys, in
first-occurrence order. -/
def prefixesOf (objs : List (String × String × Data)) (bucket delim : String) : List String :=
  eraseDupsAux []
    (((objs.filter (fun o => o.1 == bucket)).map (fun o => o.2.1)).filterMap
      (commonPrefixOf delim))

/-- Adapter `ListCommonPrefixes`: a scheduled failure yields an error,
otherwise the bucket's distinct top-level prefixes. -/
def listCommonPrefixes (s : StoreState) (bucket delim : String) :
    StoreState × Except Err (List String) :=
  let (f, s') := nextStep s
  match f with
  | some e => (s', .error e)
  | none => (s', .ok (prefixesOf s'.objects bucket delim))

/-- The `glog.Errorf` message emitted when the best-effort log upload fails. -/
def logUploadErrMsg (bucket logKey : String) (e : Err) : String :=
  sprintf "error uploading %s/%s: %v" [bucket, logKey, e.render]

/-- The method `backupService.UploadBackup`: writes the metadata object (hard stop on
failure), then the data archive (on failure, rolls back the metadata object
and returns the aggregate of the data error and any delete error), then the
log object best-effort (a failure is only reported to `glog`). -/
def UploadBackup (s : StoreState) (bucket backupName : String)
    (metadata backup log : Data) : StoreState × Option Err :=
  let metadataKey := getMetadataKey backupName
  match putObject s bucket metadataKey metadata with
  | (s₁, some e) => (s₁, some e)
  | (s₁, none) =>
    match putObject s₁ bucket (getBackupKey backupName) backup with
    | (s₂, some e) =>
      let (s₃, deleteErr) := deleteObject s₂ bucket metadataKey
      (s₃, NewAggregate [some e, deleteErr])
    | (s₂, none) =>
      let logKey := getBackupLogKey backupName
      match putObject s₂ bucket logKey log with
      | (s₃, some e) => ({ s₃ with glog := s₃.glog ++ [logUploadErrMsg bucket logKey e] }, none)
      | (s₃, none) => (s₃, none)

/-- The method `backupService.DownloadBackup`: fetches the data-archive object only. -/
def DownloadBackup (s : StoreState) (bucket backupName : String) :
    StoreState × Except Err Data :=
  getObject s bucket (getBackupKey backupName)

/-- The method `backupService.DeleteBackup`: attempts to delete the data-archive key and
then the metadata key unconditionally, collecting all failures into one
aggregate (nil when both succeed). The log object is not touched. -/
def DeleteBackup (s : StoreState) (bucket backupName : String) : StoreState × Option Err :=
  let (s₁, e₁) := deleteObject s bucket (getBackupKey backupName)
  let errs : List (Option Err) := [e₁]
  let (s₂, e₂) := deleteObject s₁ bucket (getMetadataKey backupName)
  let errs := errs ++ [e₂]
  (s₂, NewAggregate errs)

/-- The `fmt.Errorf` message for a decoded object of the wrong runtime type
(`"unexpected type for %s/%s: %T"`, with `%T` rendering the type name). -/
def unexpectedTypeMsg (bucket key typeName : String) : String :=
  sprintf "unexpected type for %s/%s: %v" [bucket, key, typeName]

/-- The per-prefix body of `GetAllBackups`'s loop: fetch the prefix's metadata
object, read it, decode it, and require the decoded object to be a `Backup`;
the first failing step's error is returned. -/
def fetchBackup (decode : Data → Except String DecodedObj) (s : StoreState)
    (bucket backupDir : String) : StoreState × Except Err Backup :=
  let key := getMetadataKey backupDir
  match getObject s bucket key with
  | (s₁, .error e) => (s₁, .error e)
  | (s₁, .ok stream) =>
    match readAll s₁ stream with
    | (s₂, .error e) => (s₂, .error e)
    | (s₂, .ok data) =>
      match decode data with
      | .error m => (s₂, .error (.msg m))
      | .ok (.backup b) => (s₂, .ok b)
      | .ok (.other typeName) => (s₂, .error (.msg (unexpectedTypeMsg bucket key typeName)))

/-- The enumeration loop of `GetAllBackups`: processes the candidate prefixes
in order, appending each decoded record to the output; any failure aborts the
whole call with a nil collection and that error. -/
def getAllLoop (decode : Data → Except String DecodedObj) (bucket : String) :
    StoreState → List String → List Backup → StoreState × Option (List Backup) × Option Err
  | s, [], output => (s, some output, none)
  | s, backupDir :: rest, output =>
    match fetchBackup decode s bucket backupDir with
    | (s₁, .error e) => (s₁, none, some e)
    | (s₁, .ok b) => getAllLoop decode bucket s₁ rest (output ++ [b])

/-- The method `backupService.GetAllBackups`: lists the bucket's common prefixes (an
error is passed through with a nil collection; an empty listing yields an
empty non-nil collection), then decodes each prefix's metadata object. -/
def GetAllBackups (decode : Data → Except String DecodedObj) (s : StoreState)
    (bucket : String) : StoreState × Option (List Backup) × Option Err :=
  match listCommonPrefixes s bucket "/" with
  | (s₁, .error e) => (s₁, none, some e)
  | (s₁, .ok prefixes) =>
    if prefixes.isEmpty then (s₁, some [], none)
    else getAllLoop decode bucket s₁ prefixes []

/-- Modelled from the spec: the Backup Listing Cache (`NewBackupCache`), whose
source is not under `src/` (only its caller
`NewBackupServiceWithCachedBackupGetter` is). Per §4.3 of the spec, the cache
holds, per bucket, the snapshot taken by the most recent successful refresh
(none before the first), and an observability channel for refresh failures. -/
structure BackupCache where
  snapshots : String → Option (List Backup)
  glog : List String

/-- Modelled from the spec: the cache state at construction, before any
refresh has completed — no snapshot for any bucket. -/
def BackupCache.init : BackupCache :=
  { snapshots := fun _ => none, glog := [] }

/-- Outcome of one delegate `GetAllBackups` call used by a refresh: the
collection and error exactly as the delegate returned them. -/
abbrev RefreshResult := Option (List Backup) × Option Err

/-- Modelled from the spec: the observability-channel message a failed cache
refresh produces for a bucket. -/
def refreshFailureMsg (bucket : String) (e : Err) : String :=
  sprintf "error refreshing %s: %v" [bucket, e.render]

/-- Modelled from the spec: one refresh attempt for a bucket. A successful
delegate call replaces that bucket's snapshot wholesale; a failed one leaves
every snapshot intact and reports the failure to the observability channel. -/
def BackupCache.refresh (c : BackupCache) (bucket : String) (result : RefreshResult) :
    BackupCache :=
  match result with
  | (backups, none) =>
    { c with snapshots := fun b => if b = bucket then some (backups.getD []) else c.snapshots b }
  | (_, some e) =>
    { c with glog := c.glog ++ [refreshFailureMsg bucket e] }

/-- Modelled from the spec: the cache's read path — the current snapshot for
the bucket (empty before the first successful refresh), never an error. -/
def BackupCache.GetAllBackups (c : BackupCache) (bucket : String) :
    Option (List Backup) × Option Err :=
  (some ((c.snapshots bucket).getD []), none)

/-- The method `cachedBackupService.GetAllBackups`: delegates the read to the cache. -/
def cachedServiceGetAllBackups (c : BackupCache) (bucket : String) :
    Option (List Backup) × Option Err :=
  c.GetAllBackups bucket

/-- Apply a sequence of refresh attempts (bucket, delegate result) in order. -/
def runRefreshes (c : BackupCache) : List (String × RefreshResult) → BackupCache
  | [] => c
  | (bucket, r) :: rest => runRefreshes (c.refresh bucket r) rest

/-- The snapshot installed by the most recent successful refresh for a bucket
in a sequence of refresh attempts, if any succeeded. -/
def lastSuccessFor (bucket : String) : List (String × RefreshResult) → Option (List Backup)
  | [] => none
  | (b, (bs, none)) :: rest =>
    match lastSuccessFor bucket rest with
    | some v => some v
    | none => if b = bucket then some (bs.getD []) else none
  | (_, (_, some _)) :: rest => lastSuccessFor bucket rest

/-- The observability message, if any, that one refresh attempt contributes. -/
def refreshFailureEntry : String × RefreshResult → Option String
  | (_, (_, none)) => none
  | (b, (_, some e)) => some (refreshFailureMsg b e)

/-- Reference chain for a successful enumeration: process the candidate
prefixes in order, each one contributing exactly one decoded record, stopping
at the first failure. Used to specify `GetAllBackups`'s success shape. -/
def processChain (decode : Data → Except String DecodedObj) (bucket : String) :
    StoreState → List String → Except (StoreState × Err) (StoreState × List Backup)
  | s, [] => .ok (s, [])
  | s, backupDir :: rest =>
    match fetchBackup decode s bucket backupDir with
    | (s₁, .error e) => .error (s₁, e)
    | (s₁, .ok b) =>
      match processChain decode bucket s₁ rest with
      | .ok (t, bs) => .ok (t, b :: bs)
      | .error x => .error x

/-! ### Key-derivation lemmas -/

theorem getMetadataKey_eq (N : String) : getMetadataKey N = N ++ "/ark-backup.json" := by
  apply String.ext
  show sprintfAux ('%' :: 's' :: "/ark-backup.json".data) [N] = (N ++ "/ark-backup.json").data
  simp [sprintfAux, String.data_append]

theorem getBackupKey_eq (N : String) : getBackupKey N = N ++ "/" ++ N ++ ".tar.gz" := by
  apply String.ext
  show sprintfAux ('%' :: 's' :: '/' :: '%' :: 's' :: ".tar.gz".data) [N, N]
      = (N ++ "/" ++ N ++ ".tar.gz").data
  simp [sprintfAux, String.data_append]

theorem getBackupLogKey_eq (N : String) : getBackupLogKey N = N ++ "/" ++ N ++ ".log.gz" := by
  apply String.ext
  show sprintfAux ('%' :: 's' :: '/' :: '%' :: 's' :: ".log.gz".data) [N, N]
      = (N ++ "/" ++ N ++ ".log.gz").data
  simp [sprintfAux, String.data_append]

theorem unexpectedTypeMsg_eq (bucket key typeName : String) :
    unexpectedTypeMsg bucket key typeName
      = "unexpected type for " ++ bucket ++ "/" ++ key ++ ": " ++ typeName := by
  apply String.ext
  show sprintfAux ("unexpected type for ".data ++ '%' :: 's' :: '/' :: '%' :: 's' :: ':' :: ' ' :: ['%', 'v'])
        [bucket, key, typeName]
      = ("unexpected type for " ++ bucket ++ "/" ++ key ++ ": " ++ typeName).data
  simp [sprintfAux, String.data_append]

theorem getBackupLogKey_ne_getBackupKey (N : String) : getBackupLogKey N ≠ getBackupKey N := by
  rw [getBackupLogKey_eq, getBackupKey_eq]
  intro h
  rw [String.ext_iff] at h
  simp [String.data_append] at h

theorem getBackupLogKey_ne_getMetadataKey (N : String) :
    getBackupLogKey N ≠ getMetadataKey N := by
  rw [getBackupLogKey_eq, getMetadataKey_eq]
  intro h
  rw [String.ext_iff] at h
  simp [String.data_append] at h
  have h₂ : N.data ++ ['.', 'l', 'o', 'g', '.', 'g', 'z']
      = ['a', 'r', 'k', '-', 'b', 'a', 'c', 'k'] ++ ['u', 'p', '.', 'j', 's', 'o', 'n'] := h
  have h₃ := List.append_inj' h₂ rfl
  simp at h₃

/-! ### Store lemmas -/

theorem lookupObj_removeObj_self (objs : List (String × String × Data)) (b k : String) :
    lookupObj (removeObj objs b k) b k = none := by
  induction objs with
  | nil => rfl
  | cons o rest ih =>
    by_cases h : o.1 = b ∧ o.2.1 = k
    · simp only [removeObj, if_pos h]
      exact ih
    · simp only [removeObj, if_neg h, lookupObj]
      exact ih

theorem lookupObj_removeObj_ne (objs : List (String × String × Data)) (b₀ k₀ b k : String)
    (h : k ≠ k₀) : lookupObj (removeObj objs b₀ k₀) b k = lookupObj objs b k := by
  induction objs with
  | nil => rfl
  | cons o rest ih =>
    by_cases hm : o.1 = b₀ ∧ o.2.1 = k₀
    · have hk : ¬(o.1 = b ∧ o.2.1 = k) := by
        rintro ⟨_, hk₂⟩
        exact h (hk₂ ▸ hm.2 ▸ rfl)
      simp only [removeObj, if_pos hm, lookupObj, if_neg hk]
      exact ih
    · by_cases ho : o.1 = b ∧ o.2.1 = k
      · simp only [removeObj, if_neg hm, lookupObj, if_pos ho]
      · simp only [removeObj, if_neg hm, lookupObj, if_neg ho]
        exact ih

/-! ### Enumeration-loop lemmas -/

theorem getAllLoop_append_ok (decode : Data → Except String DecodedObj) (bucket : String)
    (l₁ l₂ : List String) : ∀ s acc t out,
    getAllLoop decode bucket s l₁ acc = (t, some out, none) →
    getAllLoop decode bucket s (l₁ ++ l₂) acc = getAllLoop decode bucket t l₂ out := by
  induction l₁ with
  | nil =>
    intro s acc t out h
    simp only [getAllLoop, Prod.mk.injEq, Option.some.injEq, and_true] at h
    obtain ⟨rfl, rfl⟩ := h
    rfl
  | cons q qs ih =>
    intro s acc t out h
    rcases hfb : fetchBackup decode s bucket q with ⟨s₁, r⟩
    cases r with
    | error e =>
      simp only [getAllLoop, hfb] at h
      simp at h
    | ok b =>
      simp only [getAllLoop, hfb] at h
      simp only [List.cons_append, getAllLoop, hfb]
      exact ih s₁ (acc ++ [b]) t out h

theorem getAllLoop_ok_chain (decode : Data → Except String DecodedObj) (bucket : String)
    (l : List String) : ∀ s acc t out,
    getAllLoop decode bucket s l acc = (t, some out, none) →
    ∃ bs, processChain decode bucket s l = .ok (t, bs) ∧ out = acc ++ bs := by
  induction l with
  | nil =>
    intro s acc t out h
    simp only [getAllLoop, Prod.mk.injEq, Option.some.injEq, and_true] at h
    obtain ⟨rfl, rfl⟩ := h
    exact ⟨[], rfl, by simp⟩
  | cons q qs ih =>
    intro s acc t out h
    rcases hfb : fetchBackup decode s bucket q with ⟨s₁, r⟩
    cases r with
    | error e =>
      simp only [getAllLoop, hfb] at h
      simp at h
    | ok b =>
      simp only [getAllLoop, hfb] at h
      obtain ⟨bs, hchain, hout⟩ := ih s₁ (acc ++ [b]) t out h
      refine ⟨b :: bs, ?_, ?_⟩
      · simp only [processChain, hfb, hchain]
      · simp [hout]

theorem processChain_length (decode : Data → Except String DecodedObj) (bucket : String)
    (l : List String) : ∀ s t bs,
    processChain decode bucket s l = .ok (t, bs) → bs.length = l.length := by
  induction l with
  | nil =>
    intro s t bs h
    simp only [processChain, Except.ok.injEq, Prod.mk.injEq] at h
    simp [← h.2]
  | cons q qs ih =>
    intro s t bs h
    rcases hfb : fetchBackup decode s bucket q with ⟨s₁, r⟩
    cases r with
    | error e =>
      simp only [processChain, hfb] at h
      simp at h
    | ok b =>
      simp only [processChain, hfb] at h
      rcases hchain : processChain decode bucket s₁ qs with x | ⟨t', bs'⟩
      · simp only [hchain] at h
        simp at h
      · simp only [hchain, Except.ok.injEq, Prod.mk.injEq] at h
        obtain ⟨rfl, rfl⟩ := h
        simp [ih s₁ t' bs' hchain]

/-! ### Cache lemmas -/

theorem runRefreshes_snapshots (bucket : String) (rs : List (String × RefreshResult)) :
    ∀ c : BackupCache, (runRefreshes c rs).snapshots bucket
      = match lastSuccessFor bucket rs with
        | some v => some v
        | none => c.snapshots bucket := by
  induction rs with
  | nil => intro c; rfl
  | cons x rest ih =>
    rcases x with ⟨b, bs, e⟩
    cases e with
    | none =>
      intro c
      rw [runRefreshes, ih]
      cases hls : lastSuccessFor bucket rest with
      | some v => simp [lastSuccessFor, hls]
      | none =>
        simp only [lastSuccessFor, hls, BackupCache.refresh]
        by_cases hb : b = bucket
        · subst hb
          simp
        · simp [hb, Ne.symm hb]
    | some e =>
      intro c
      rw [runRefreshes, ih]
      simp [lastSuccessFor, BackupCache.refresh]

theorem runRefreshes_glog (rs : List (String × RefreshResult)) :
    ∀ c : BackupCache, (runRefreshes c rs).glog
      = c.glog ++ rs.filterMap refreshFailureEntry := by
  induction rs with
  | nil => intro c; simp [runRefreshes]
  | cons x rest ih =>
    rcases x with ⟨b, bs, e⟩
    cases e with
    | none =>
      intro c
      rw [runRefreshes, ih]
      simp [BackupCache.refresh, refreshFailureEntry]
    | some e =>
      intro c
      rw [runRefreshes, ih]
      simp [BackupCache.refresh, refreshFailureEntry]

/-! ### Claims -/

/-- C9: for every backup name `N`, the key-derivation functions (being pure
functions of `N`, hence deterministic) yield exactly the three keys
`N/ark-backup.json` (metadata), `N/N.tar.gz` (data archive) and `N/N.log.gz`
(log), for any string `N` including ones containing `/`. -/
theorem claim_C9_keyDerivation (N : String) :
    getMetadataKey N = N ++ "/ark-backup.json" ∧
    getBackupKey N = N ++ "/" ++ N ++ ".tar.gz" ∧
    getBackupLogKey N = N ++ "/" ++ N ++ ".log.gz" :=
  ⟨getMetadataKey_eq N, getBackupKey_eq N, getBackupLogKey_eq N⟩

/-- C6: if the metadata write fails, `UploadBackup` returns that adapter error
unchanged and attempts no further writes or deletions: exactly one adapter
step is consumed, and the bucket contents and observability log are untouched. -/
theorem claim_C6_uploadMetadataFailHardStop (s : StoreState) (bucket name : String)
    (md bk lg : Data) (e : Err) (rest : List (Option Err))
    (h : s.schedule = some e :: rest) :
    UploadBackup s bucket name md bk lg = ({ s with schedule := rest }, some e) := by
  simp only [UploadBackup, putObject, nextStep, h]

/-- Witness for C6 at a concrete input. -/
theorem claim_C6_witness :
    UploadBackup ⟨[], [some (Err.msg "metadata put failed")], []⟩ "B" "N" "m" "d" "l"
      = (⟨[], [], []⟩, some (Err.msg "metadata put failed")) :=
  claim_C6_uploadMetadataFailHardStop _ "B" "N" "m" "d" "l" _ [] rfl

/-- C1: if the metadata write succeeds and the data-archive write fails,
`UploadBackup` attempts to delete the metadata object and returns a non-nil
error. When the rollback delete succeeds the error is the aggregate of the
data-write failure alone (rendering exactly as that failure, with no rollback
error) and the metadata object is absent from the final store; when the
rollback delete also fails the error aggregates both failures. -/
theorem claim_C1_uploadRollback (s : StoreState) (bucket name : String) (md bk lg : Data)
    (e : Err) (d : Option Err) (rest : List (Option Err))
    (h : s.schedule = none :: some e :: d :: rest) :
    (UploadBackup s bucket name md bk lg).2 = some (.aggregate (e :: d.toList)) ∧
    (UploadBackup s bucket name md bk lg).2 ≠ none ∧
    Err.render (.aggregate [e]) = Err.render e ∧
    (d = none →
      lookupObj (UploadBackup s bucket name md bk lg).1.objects bucket (getMetadataKey name)
        = none) := by
  cases d with
  | none =>
    refine ⟨?_, ?_, rfl, fun _ => ?_⟩ <;>
      simp [UploadBackup, putObject, deleteObject, nextStep, h, NewAggregate,
        lookupObj_removeObj_self]
  | some de =>
    refine ⟨?_, ?_, rfl, fun hc => by cases hc⟩ <;>
      simp [UploadBackup, putObject, deleteObject, nextStep, h, NewAggregate]

/-- Witness for C1 at a concrete input (rollback delete succeeding). -/
theorem claim_C1_witness :
    (UploadBackup ⟨[], [none, some (Err.msg "data put failed"), none], []⟩
        "B" "N" "m" "d" "l").2
      = some (.aggregate [Err.msg "data put failed"]) ∧
    (UploadBackup ⟨[], [none, some (Err.msg "data put failed"), none], []⟩
        "B" "N" "m" "d" "l").2 ≠ none ∧
    Err.render (.aggregate [Err.msg "data put failed"])
      = Err.render (Err.msg "data put failed") ∧
    (none = (none : Option Err) →
      lookupObj (UploadBackup ⟨[], [none, some (Err.msg "data put failed"), none], []⟩
            "B" "N" "m" "d" "l").1.objects "B" (getMetadataKey "N")
        = none) :=
  claim_C1_uploadRollback ⟨[], [none, some (Err.msg "data put failed"), none], []⟩
    "B" "N" "m" "d" "l" (Err.msg "data put failed") none [] rfl

/-- C5: if the metadata and data-archive writes both succeed, `UploadBackup`
attempts the log write (a third adapter step is consumed) and returns a nil
error whether or not the log write succeeded; a log-write failure is reported
only to the observability channel. -/
theorem claim_C5_uploadLogBestEffort (s : StoreState) (bucket name : String)
    (md bk lg : Data) (l : Option Err) (rest : List (Option Err))
    (h : s.schedule = none :: none :: l :: rest) :
    (UploadBackup s bucket name md bk lg).2 = none ∧
    (UploadBackup s bucket name md bk lg).1.schedule = rest ∧
    (UploadBackup s bucket name md bk lg).1.glog
      = s.glog ++ (match l with
        | some e => [logUploadErrMsg bucket (getBackupLogKey name) e]
        | none => []) := by
  cases l <;> simp [UploadBackup, putObject, nextStep, h]

/-- Witness for C5 at a concrete input (log write failing). -/
theorem claim_C5_witness :
    (UploadBackup ⟨[], [none, none, some (Err.msg "log put failed")], []⟩
        "B" "N" "m" "d" "l").2 = none ∧
    (UploadBackup ⟨[], [none, none, some (Err.msg "log put failed")], []⟩
        "B" "N" "m" "d" "l").1.schedule = [] ∧
    (UploadBackup ⟨[], [none, none, some (Err.msg "log put failed")], []⟩
        "B" "N" "m" "d" "l").1.glog
      = [] ++ [logUploadErrMsg "B" (getBackupLogKey "N") (Err.msg "log put failed")] :=
  claim_C5_uploadLogBestEffort ⟨[], [none, none, some (Err.msg "log put failed")], []⟩
    "B" "N" "m" "d" "l" (some (Err.msg "log put failed")) [] rfl

/-- C4: `DeleteBackup` attempts to delete the data-archive key and then the
metadata key unconditionally (two adapter steps are consumed whatever the
first one's outcome), never deletes the log key, returns the aggregate of all
deletion failures, and returns nil exactly when both deletions succeeded. -/
theorem claim_C4_deleteBestEffort (s : StoreState) (bucket name : String)
    (d₁ d₂ : Option Err) (rest : List (Option Err)) (h : s.schedule = d₁ :: d₂ :: rest) :
    (DeleteBackup s bucket name).2 = NewAggregate [d₁, d₂] ∧
    (DeleteBackup s bucket name).1.schedule = rest ∧
    lookupObj (DeleteBackup s bucket name).1.objects bucket (getBackupLogKey name)
      = lookupObj s.objects bucket (getBackupLogKey name) ∧
    ((DeleteBackup s bucket name).2 = none ↔ (d₁ = none ∧ d₂ = none)) := by
  cases d₁ with
  | none =>
    cases d₂ with
    | none =>
      refine ⟨?_, ?_, ?_, ?_⟩ <;>
        simp [DeleteBackup, deleteObject, nextStep, h, NewAggregate]
      rw [lookupObj_removeObj_ne _ _ _ _ _ (getBackupLogKey_ne_getMetadataKey name),
        lookupObj_removeObj_ne _ _ _ _ _ (getBackupLogKey_ne_getBackupKey name)]
    | some e₂ =>
      refine ⟨?_, ?_, ?_, ?_⟩ <;>
        simp [DeleteBackup, deleteObject, nextStep, h, NewAggregate]
      rw [lookupObj_removeObj_ne _ _ _ _ _ (getBackupLogKey_ne_getBackupKey name)]
  | some e₁ =>
    cases d₂ with
    | none =>
      refine ⟨?_, ?_, ?_, ?_⟩ <;>
        simp [DeleteBackup, deleteObject, nextStep, h, NewAggregate]
      rw [lookupObj_removeObj_ne _ _ _ _ _ (getBackupLogKey_ne_getMetadataKey name)]
    | some e₂ =>
      refine ⟨?_, ?_, ?_, ?_⟩ <;>
        simp [DeleteBackup, deleteObject, nextStep, h, NewAggregate]

/-- Witness for C4 at a concrete input (both deletions failing, a log object
present and untouched). -/
theorem claim_C4_witness :
    (DeleteBackup ⟨[("B", "N/N.log.gz", "L")],
        [some (Err.msg "delete data failed"), some (Err.msg "delete metadata failed")], []⟩
        "B" "N").2
      = NewAggregate [some (Err.msg "delete data failed"),
          some (Err.msg "delete metadata failed")] ∧
    (DeleteBackup ⟨[("B", "N/N.log.gz", "L")],
        [some (Err.msg "delete data failed"), some (Err.msg "delete metadata failed")], []⟩
        "B" "N").1.schedule = [] ∧
    lookupObj (DeleteBackup ⟨[("B", "N/N.log.gz", "L")],
        [some (Err.msg "delete data failed"), some (Err.msg "delete metadata failed")], []⟩
        "B" "N").1.objects "B" (getBackupLogKey "N")
      = lookupObj [("B", "N/N.log.gz", "L")] "B" (getBackupLogKey "N") ∧
    ((DeleteBackup ⟨[("B", "N/N.log.gz", "L")],
        [some (Err.msg "delete data failed"), some (Err.msg "delete metadata failed")], []⟩
        "B" "N").2 = none ↔
      (some (Err.msg "delete data failed") = (none : Option Err) ∧
        some (Err.msg "delete metadata failed") = (none : Option Err))) :=
  claim_C4_deleteBestEffort ⟨[("B", "N/N.log.gz", "L")],
    [some (Err.msg "delete data failed"), some (Err.msg "delete metadata failed")], []⟩
    "B" "N" (some (Err.msg "delete data failed")) (some (Err.msg "delete metadata failed"))
    [] rfl

/-- C8: when the common-prefix listing succeeds with zero prefixes,
`GetAllBackups` returns an empty, non-nil collection (`some []`, as opposed to
the nil collection `none` it returns on failure) and a nil error. -/
theorem claim_C8_emptyListing (decode : Data → Except String DecodedObj)
    (s s₀ : StoreState) (bucket : String)
    (h : listCommonPrefixes s bucket "/" = (s₀, .ok [])) :
    GetAllBackups decode s bucket = (s₀, some [], none) := by
  simp [GetAllBackups, h]

/-- Witness for C8 at a concrete input (an empty bucket). -/
theorem claim_C8_witness :
    GetAllBackups (fun _ => Except.error "unused") ⟨[], [], []⟩ "B"
      = (⟨[], [], []⟩, some [], none) :=
  claim_C8_emptyListing (fun _ => Except.error "unused") ⟨[], [], []⟩ ⟨[], [], []⟩ "B" rfl

/-- C2: if, after the earlier candidate prefixes all decoded successfully,
fetching, reading, or decoding the metadata object of the next candidate
fails, `GetAllBackups` aborts: it returns that error and the nil collection,
never a partial list of the already-decoded candidates. -/
theorem claim_C2_allOrNothing (decode : Data → Except String DecodedObj)
    (s s₀ t t' : StoreState) (bucket : String) (ps₁ : List String) (p : String)
    (ps₂ : List String) (bs : List Backup) (e : Err)
    (h₁ : listCommonPrefixes s bucket "/" = (s₀, .ok (ps₁ ++ p :: ps₂)))
    (h₂ : getAllLoop decode bucket s₀ ps₁ [] = (t, some bs, none))
    (h₃ : fetchBackup decode t bucket p = (t', .error e)) :
    GetAllBackups decode s bucket = (t', none, some e) := by
  have hne : (ps₁ ++ p :: ps₂).isEmpty = false := by simp
  simp only [GetAllBackups, h₁, hne, Bool.false_eq_true, if_false]
  rw [getAllLoop_append_ok decode bucket ps₁ (p :: ps₂) s₀ [] t bs h₂]
  simp only [getAllLoop, h₃]

/-- Decoder used by the enumeration witnesses: `"ga"` decodes to backup `a`,
everything else fails to decode. -/
def decodeW : Data → Except String DecodedObj :=
  fun d => if d = "ga" then .ok (.backup ⟨"a", "", ""⟩) else .error "decode failed"

/-- Store used by the C2 witness: prefixes `a` and `b`, where `b`'s metadata
payload does not decode. -/
def stC2 : StoreState :=
  ⟨[("B", "a/ark-backup.json", "ga"), ("B", "b/ark-backup.json", "bad")], [], []⟩

/-- Witness for C2 at a concrete input: prefix `a` decodes, prefix `b` fails;
the whole call fails with `b`'s decode error and the nil collection. -/
theorem claim_C2_witness :
    GetAllBackups decodeW stC2 "B" = (stC2, none, some (Err.msg "decode failed")) :=
  claim_C2_allOrNothing decodeW stC2 stC2 stC2 stC2 "B" ["a"] "b" [] [⟨"a", "", ""⟩]
    (Err.msg "decode failed") rfl rfl rfl

/-- C10: when `GetAllBackups` succeeds, its collection is exactly one decoded
record per listed prefix, in listing order: the run is described by the
reference chain `processChain`, whose i-th record is the decoded metadata
object of the i-th prefix, and the lengths agree. -/
theorem claim_C10_successShape (decode : Data → Except String DecodedObj)
    (s s' : StoreState) (bucket : String) (out : List Backup)
    (h : GetAllBackups decode s bucket = (s', some out, none)) :
    ∃ s₀ ps, listCommonPrefixes s bucket "/" = (s₀, .ok ps) ∧
      processChain decode bucket s₀ ps = .ok (s', out) ∧
      out.length = ps.length := by
  rcases hl : listCommonPrefixes s bucket "/" with ⟨s₀, r⟩
  cases r with
  | error e =>
    simp only [GetAllBackups, hl] at h
    simp at h
  | ok ps =>
    cases ps with
    | nil =>
      simp only [GetAllBackups, hl, List.isEmpty_nil, if_true] at h
      simp only [Prod.mk.injEq, Option.some.injEq, and_true] at h
      obtain ⟨rfl, rfl⟩ := h
      exact ⟨s₀, [], rfl, rfl, rfl⟩
    | cons q qs =>
      simp only [GetAllBackups, hl, List.isEmpty_cons, Bool.false_eq_true, if_false] at h
      obtain ⟨bs, hchain, hout⟩ := getAllLoop_ok_chain decode bucket (q :: qs) s₀ [] s' out h
      rw [List.nil_append] at hout
      subst hout
      exact ⟨s₀, q :: qs, rfl, hchain,
        processChain_length decode bucket (q :: qs) s₀ s' out hchain⟩

/-- Store used by the C10 witness: prefixes `a` and `b`, both decodable. -/
def stC10 : StoreState :=
  ⟨[("B", "a/ark-backup.json", "ga"), ("B", "b/ark-backup.json", "gb")], [], []⟩

/-- Decoder used by the C10 witness: `"ga"` and `"gb"` decode to backups. -/
def decodeW₂ : Data → Except String DecodedObj :=
  fun d =>
    if d = "ga" then .ok (.backup ⟨"a", "", ""⟩)
    else if d = "gb" then .ok (.backup ⟨"b", "", ""⟩)
    else .error "decode failed"

/-- Witness for C10 at a concrete input: a successful two-prefix enumeration. -/
theorem claim_C10_witness :
    ∃ s₀ ps, listCommonPrefixes stC10 "B" "/" = (s₀, .ok ps) ∧
      processChain decodeW₂ "B" s₀ ps
        = .ok (stC10, [⟨"a", "", ""⟩, ⟨"b", "", ""⟩]) ∧
      ([⟨"a", "", ""⟩, ⟨"b", "", ""⟩] : List Backup).length = ps.length :=
  claim_C10_successShape decodeW₂ stC10 stC10 "B" [⟨"a", "", ""⟩, ⟨"b", "", ""⟩] rfl

/-- Store used by the C7 counterexample: one candidate prefix `a` whose
metadata payload is present but undecodable. -/
def stC7 : StoreState := ⟨[("mybucket", "a/ark-backup.json", "x")], [], []⟩

/-- Counterexample to C7 as stated: a metadata payload that is present but not
parseable makes `GetAllBackups` return the decoder's error verbatim, and that
error mentions neither the offending bucket nor the offending key. -/
theorem claim_C7_counterexample :
    GetAllBackups (fun _ => Except.error "no kind registered") stC7 "mybucket"
      = (stC7, none, some (.msg "no kind registered")) ∧
    ¬ "mybucket".data <:+: "no kind registered".data ∧
    ¬ (getMetadataKey "a").data <:+: "no kind registered".data :=
  ⟨rfl, by decide, by decide⟩

/-- C7 (amended): a decode failure of the wrong-type kind produces an error
that reports the offending bucket and key; a payload that fails to parse
instead makes `GetAllBackups` return the decoder's error unchanged (which need
not mention bucket or key). -/
theorem claim_C7_decodeErrorContext (decode : Data → Except String DecodedObj)
    (s s₀ t u₁ u₂ : StoreState) (bucket : String) (ps₁ : List String) (p : String)
    (ps₂ : List String) (bs : List Backup) (stream d : Data)
    (h₁ : listCommonPrefixes s bucket "/" = (s₀, .ok (ps₁ ++ p :: ps₂)))
    (h₂ : getAllLoop decode bucket s₀ ps₁ [] = (t, some bs, none))
    (h₃ : getObject t bucket (getMetadataKey p) = (u₁, .ok stream))
    (h₄ : readAll u₁ stream = (u₂, .ok d)) :
    (∀ tn, decode d = .ok (.other tn) →
      GetAllBackups decode s bucket
        = (u₂, none, some (.msg (unexpectedTypeMsg bucket (getMetadataKey p) tn))) ∧
      bucket.data <:+: (unexpectedTypeMsg bucket (getMetadataKey p) tn).data ∧
      (getMetadataKey p).data <:+: (unexpectedTypeMsg bucket (getMetadataKey p) tn).data) ∧
    (∀ m, decode d = .error m →
      GetAllBackups decode s bucket = (u₂, none, some (.msg m))) := by
  have hne : (ps₁ ++ p :: ps₂).isEmpty = false := by simp
  constructor
  · intro tn h₅
    have hfb : fetchBackup decode t bucket p
        = (u₂, .error (.msg (unexpectedTypeMsg bucket (getMetadataKey p) tn))) := by
      simp only [fetchBackup, h₃, h₄, h₅]
    refine ⟨?_, ?_, ?_⟩
    · simp only [GetAllBackups, h₁, hne, Bool.false_eq_true, if_false]
      rw [getAllLoop_append_ok decode bucket ps₁ (p :: ps₂) s₀ [] t bs h₂]
      simp only [getAllLoop, hfb]
    · rw [unexpectedTypeMsg_eq]
      simp only [String.data_append]
      have := List.infix_append "unexpected type for ".data bucket.data
        ("/".data ++ (getMetadataKey p).data ++ ": ".data ++ tn.data)
      simpa [List.append_assoc] using this
    · rw [unexpectedTypeMsg_eq]
      simp only [String.data_append]
      have := List.infix_append ("unexpected type for ".data ++ bucket.data ++ "/".data)
        (getMetadataKey p).data (": ".data ++ tn.data)
      simpa [List.append_assoc] using this
  · intro m h₅
    have hfb : fetchBackup decode t bucket p = (u₂, .error (.msg m)) := by
      simp only [fetchBackup, h₃, h₄, h₅]
    simp only [GetAllBackups, h₁, hne, Bool.false_eq_true, if_false]
    rw [getAllLoop_append_ok decode bucket ps₁ (p :: ps₂) s₀ [] t bs h₂]
    simp only [getAllLoop, hfb]

/-- Decoder used by the C7 witness: `"x"` decodes to a non-Backup object. -/
def decodeW₃ : Data → Except String DecodedObj :=
  fun d => if d = "x" then .ok (.other "*v1.Pod") else .error "decode failed"

/-- Witness for the amended C7 at a concrete input: a wrong-type decode
failure whose error message contains the bucket and the key. -/
theorem claim_C7_witness :
    (∀ tn, decodeW₃ "x" = .ok (.other tn) →
      GetAllBackups decodeW₃ stC7 "mybucket"
        = (stC7, none, some (.msg (unexpectedTypeMsg "mybucket" (getMetadataKey "a") tn))) ∧
      "mybucket".data <:+: (unexpectedTypeMsg "mybucket" (getMetadataKey "a") tn).data ∧
      (getMetadataKey "a").data
        <:+: (unexpectedTypeMsg "mybucket" (getMetadataKey "a") tn).data) ∧
    (∀ m, decodeW₃ "x" = .error m →
      GetAllBackups decodeW₃ stC7 "mybucket" = (stC7, none, some (.msg m))) :=
  claim_C7_decodeErrorContext decodeW₃ stC7 stC7 stC7 stC7 stC7 "mybucket" [] "a" [] []
    "x" "x" rfl rfl rfl rfl

/-- C3 (cache modelled from the spec): the cache-backed `GetAllBackups` never
returns an error — after any sequence of refresh attempts it returns the
snapshot of the most recent successful refresh for the bucket (the empty
collection when none has succeeded yet) with a nil error, and refresh
failures go only to the observability channel. -/
theorem claim_C3_cacheNeverErrors (bucket : String) (rs : List (String × RefreshResult)) :
    cachedServiceGetAllBackups (runRefreshes BackupCache.init rs) bucket
      = (some ((lastSuccessFor bucket rs).getD []), none) ∧
    (runRefreshes BackupCache.init rs).glog = rs.filterMap refreshFailureEntry := by
  constructor
  · show (some (((runRefreshes BackupCache.init rs).snapshots bucket).getD []), none) = _
    rw [runRefreshes_snapshots bucket rs BackupCache.init]
    cases hls : lastSuccessFor bucket rs <;> simp [BackupCache.init]
  · rw [runRefreshes_glog]
    simp [BackupCache.init]

end Velero
